import Mathlib

set_option autoImplicit false
set_option maxRecDepth 8000

/-!
Shallow embedding of the e4go client library core: the crypto framing layer
(crypto.go, validators.go), the public-key store interface (keys/types.go)
and the polymorphic JSON key codec (keys/json.go).

Byte buffers are embedded as lists of natural numbers with each element
below 256; machine arithmetic is made explicit with modular reductions.
Time is embedded at second granularity: every function that reads the clock
takes the current Unix time as an explicit integer argument.
-/

/-- Symmetric key length in bytes. Modelled from the spec: a contract constant
whose defining constants file is not among the sources; the value 32 is pinned
by the key-derivation test vector, whose expected output is 32 bytes. -/
def KeyLen : Nat := 32

/-- Identifier length in bytes. Modelled from the spec: a contract constant;
the value 16 is pinned by the identifier hashing test vector of 16 bytes. -/
def IDLen : Nat := 16

/-- Timestamp field length in bytes. Modelled from the spec: the wire format
carries an 8-byte little-endian Unix-seconds timestamp. -/
def TimestampLen : Nat := 8

/-- Authentication tag length in bytes. Modelled from the spec: the fixed
mode-specific AEAD overhead constant of the SIV construction. -/
def TagLen : Nat := 16

/-- Replay window length in seconds. Modelled from the spec: the replay-window
duration contract constant; its defining file is not among the sources, so the
upstream value of ten minutes is used. No theorem depends on the exact value. -/
def MaxDelayDuration : Int := 600

/-- Ed25519 public key size in bytes, from the external ed25519 package. -/
def ed25519PublicKeySize : Nat := 32

/-- A buffer is a byte list when every element is below 256. -/
def IsByteList (l : List Nat) : Prop := ∀ b ∈ l, b < 256

instance (l : List Nat) : Decidable (IsByteList l) := by
  unfold IsByteList; infer_instance

/-- Little-endian encoding of a 64-bit value into 8 bytes, embedding
binary.LittleEndian.PutUint64. -/
def putUint64LE (v : Nat) : List Nat :=
  [v % 256, v / 2 ^ 8 % 256, v / 2 ^ 16 % 256, v / 2 ^ 24 % 256,
   v / 2 ^ 32 % 256, v / 2 ^ 40 % 256, v / 2 ^ 48 % 256, v / 2 ^ 56 % 256]

/-- Little-endian decoding of the first 8 bytes, embedding
binary.LittleEndian.Uint64. -/
def uint64LE (b : List Nat) : Nat :=
  b.getD 0 0 + b.getD 1 0 * 2 ^ 8 + b.getD 2 0 * 2 ^ 16 + b.getD 3 0 * 2 ^ 24 +
  b.getD 4 0 * 2 ^ 32 + b.getD 5 0 * 2 ^ 40 + b.getD 6 0 * 2 ^ 48 + b.getD 7 0 * 2 ^ 56

/-- Reinterpretation of a uint64 value as the int64 it represents, embedding
the Go conversion int64(v) used when decoding timestamps. -/
def toInt64 (v : Nat) : Int := if v < 2 ^ 63 then (v : Int) else (v : Int) - 2 ^ 64

/-- Conversion of an int64 Unix time to uint64, embedding the Go conversion
uint64(t) used when encoding timestamps. -/
def toUint64 (n : Int) : Nat := (n % (2 ^ 64 : Int)).toNat

/-- Error values of the embedded library, one constructor per distinct error
produced by the embedded functions. -/
inductive Err
  /-- ErrInvalidProtectedLen from crypto.go -/
  | invalidProtectedLen
  /-- ErrTooShortCipher from crypto.go -/
  | tooShortCipher
  /-- ErrTimestampInFuture from crypto.go -/
  | timestampInFuture
  /-- ErrTimestampTooOld from crypto.go -/
  | timestampTooOld
  /-- the formatted invalid-length error of ValidateSymKey -/
  | invalidSymKeyLen (expected got : Nat)
  /-- the all-zeros error of ValidateSymKey -/
  | invalidSymKeyZero
  /-- the formatted invalid-length error of ValidateEd25519PubKey -/
  | invalidPubKeyLen (g w : Nat)
  /-- the all-zeros error of ValidateEd25519PubKey -/
  | invalidPubKeyZero
  /-- the too-short-ciphertext error inside Decrypt -/
  | tooShortCiphertext
  /-- AEAD open failure: tag verification failed -/
  | authFailed
  /-- ErrPubKeyNotFound from keys/types.go -/
  | pubKeyNotFound
  /-- the formatted error of RemovePubKey on an absent ID -/
  | noPubKeyForID
  /-- FromRawJSON: missing keyType field -/
  | missingKeyType
  /-- FromRawJSON: missing keyData field -/
  | missingKeyData
  /-- FromRawJSON: keyType field does not decode to an integer -/
  | keyTypeDecodeFailed
  /-- FromRawJSON: unsupported json key type -/
  | unsupportedKeyType
  deriving DecidableEq, Repr

/-- The all-zero symmetric key zeroSymKey of validators.go. -/
def zeroSymKey : List Nat := List.replicate KeyLen 0

/-- ValidateSymKey checks that a key is of the expected length and not filled
with zero, embedding ValidateSymKey of validators.go. -/
def ValidateSymKey (key : List Nat) : Option Err :=
  if key.length ≠ KeyLen then some (Err.invalidSymKeyLen KeyLen key.length)
  else if key = zeroSymKey then some Err.invalidSymKeyZero
  else none

/-- The all-zero Ed25519 public key of validators.go. -/
def zeroEd25519pk : List Nat := List.replicate ed25519PublicKeySize 0

/-- ValidateEd25519PubKey checks that a key is of the expected length and not
all zero, embedding ValidateEd25519PubKey of validators.go. -/
def ValidateEd25519PubKey (key : List Nat) : Option Err :=
  if key.length ≠ ed25519PublicKeySize then
    some (Err.invalidPubKeyLen key.length ed25519PublicKeySize)
  else if key = zeroEd25519pk then some Err.invalidPubKeyZero
  else none

/-- ValidateTimestamp checks that the given timestamp bytes decode to a time
not in the future and not older than MaxDelayDuration, embedding
ValidateTimestamp of validators.go with the current Unix time passed
explicitly. -/
def ValidateTimestamp (timestamp : List Nat) (now : Int) : Option Err :=
  let tsTime := toInt64 (uint64LE timestamp)
  let minTime := now - MaxDelayDuration
  if now < tsTime then some Err.timestampInFuture
  else if tsTime < minTime then some Err.timestampTooOld
  else none

/-- ValidateTimestampKey embeds ValidateTimestampKey of validators.go; the
source body also bounds ageing by MaxDelayDuration. -/
def ValidateTimestampKey (timestamp : List Nat) (now : Int) : Option Err :=
  let tsTime := toInt64 (uint64LE timestamp)
  let minTime := now - MaxDelayDuration
  if now < tsTime then some Err.timestampInFuture
  else if tsTime < minTime then some Err.timestampTooOld
  else none

/-- Accumulator step of the deterministic tag model, a 64-bit mixing step. -/
def mixByte (acc b : Nat) : Nat := (acc * 131 + b + 7) % 2 ^ 64

/-- Folds a byte list into a 64-bit accumulator. -/
def mixList (acc : Nat) (l : List Nat) : Nat := l.foldl mixByte acc

/-- Modelled from the spec: the synthetic tag of the external AES-CMAC-SIV
AEAD library, which is outside the repository and specified only at its
interface: a deterministic function of key, associated data and plaintext
producing TagLen bytes. -/
def sivTag (key ad pt : List Nat) : List Nat :=
  let t1 := mixList (mixList (mixList 17 key) ad) pt
  putUint64LE t1 ++ putUint64LE (mixByte t1 1)

/-- Keystream byte at a given position for the stream-cipher half of the
modelled SIV mode. -/
def keystreamByte (seed i : Nat) : Nat := (seed * (i + 1) + i) % 256

/-- Stream seed derived from key and tag for the modelled SIV mode. -/
def streamSeed (key tag : List Nat) : Nat := mixList (mixList 29 key) tag

/-- Byte-wise stream encryption from a starting position. -/
def encFrom (seed : Nat) : Nat → List Nat → List Nat
  | _, [] => []
  | i, b :: rest => (b + keystreamByte seed i) % 256 :: encFrom seed (i + 1) rest

/-- Byte-wise stream decryption from a starting position. -/
def decFrom (seed : Nat) : Nat → List Nat → List Nat
  | _, [] => []
  | i, b :: rest => (b + (256 - keystreamByte seed i)) % 256 :: decFrom seed (i + 1) rest

/-- Modelled from the spec: Seal of the external AEAD library; deterministic,
output is the tag followed by a ciphertext of the same length as the
plaintext. -/
def sivSeal (key ad pt : List Nat) : List Nat :=
  let tag := sivTag key ad pt
  tag ++ encFrom (streamSeed key tag) 0 pt

/-- Modelled from the spec: Open of the external AEAD library; inverse of
Seal, failing whenever the recomputed tag does not match. -/
def sivOpen (key ad ct : List Nat) : Option (List Nat) :=
  if ct.length < TagLen then none
  else
    let tag := ct.take TagLen
    let body := ct.drop TagLen
    let pt := decFrom (streamSeed key tag) 0 body
    if sivTag key ad pt = tag then some pt else none

/-- Encrypt creates an authenticated ciphertext, embedding Encrypt of
crypto.go: validate the key, double it for the SIV mode, then seal. -/
def Encrypt (key ad pt : List Nat) : Except Err (List Nat) :=
  match ValidateSymKey key with
  | some e => Except.error e
  | none => Except.ok (sivSeal (key ++ key) ad pt)

/-- Decrypt verifies and decrypts an authenticated ciphertext, embedding
Decrypt of crypto.go: validate the key, reject inputs shorter than the AEAD
overhead, then open. -/
def Decrypt (key ad ct : List Nat) : Except Err (List Nat) :=
  match ValidateSymKey key with
  | some e => Except.error e
  | none =>
    if ct.length < TagLen then Except.error Err.tooShortCiphertext
    else
      match sivOpen (key ++ key) ad ct with
      | some pt => Except.ok pt
      | none => Except.error Err.authFailed

/-- ProtectSymKey encrypts a payload under a symmetric key, embedding
ProtectSymKey of crypto.go with the current Unix time passed explicitly:
encode the time as an 8-byte little-endian timestamp, seal the payload with
the timestamp as associated data, concatenate, then apply the defensive
length check. -/
def ProtectSymKey (payload key : List Nat) (now : Int) : Except Err (List Nat) :=
  let timestamp := putUint64LE (toUint64 now)
  match Encrypt key timestamp payload with
  | Except.error e => Except.error e
  | Except.ok ct =>
    let protectedBuf := timestamp ++ ct
    let protectedLen := TimestampLen + payload.length + TagLen
    if protectedLen ≠ protectedBuf.length then Except.error Err.invalidProtectedLen
    else Except.ok protectedBuf

/-- UnprotectSymKey decrypts protected bytes under a symmetric key, embedding
UnprotectSymKey of crypto.go with the current Unix time passed explicitly:
reject short buffers, split timestamp and ciphertext, validate the timestamp,
then decrypt with the timestamp as associated data. -/
def UnprotectSymKey (protectedBuf key : List Nat) (now : Int) : Except Err (List Nat) :=
  if protectedBuf.length ≤ TimestampLen + TagLen then Except.error Err.tooShortCipher
  else
    let ct := protectedBuf.drop TimestampLen
    let timestamp := protectedBuf.take TimestampLen
    match ValidateTimestamp timestamp now with
    | some e => Except.error e
    | none => Decrypt key timestamp ct

/-- Round trip of the symmetric framing protocol: protect at one time, then
unprotect the result at a possibly later time. -/
def roundTripSymKey (payload key : List Nat) (nowP nowU : Int) : Except Err (List Nat) :=
  match ProtectSymKey payload key nowP with
  | Except.error e => Except.error e
  | Except.ok p => UnprotectSymKey p key nowU

/-- Modelled from the spec: the public-key store backing a public-key material
instance is a mapping from peer ID to Ed25519 public key with at most one
entry per ID; the map-based implementation file is not among the sources,
only the PubKeyStore interface of keys/types.go and its tests. The store is
embedded as an association list with unique keys. -/
def PubKeysMap : Type := List (List Nat × List Nat)

/-- Lookup of an entry by ID in the store. -/
def lookupId : PubKeysMap → List Nat → Option (List Nat)
  | [], _ => none
  | (i, k) :: rest, id => if i = id then some k else lookupId rest id

/-- Removal of every entry carrying the given ID. -/
def removeId : PubKeysMap → List Nat → PubKeysMap
  | [], _ => []
  | (i, k) :: rest, id =>
    if i = id then removeId rest id else (i, k) :: removeId rest id

/-- Number of entries carrying the given ID. -/
def countId (s : PubKeysMap) (id : List Nat) : Nat :=
  s.countP (fun p => decide (p.1 = id))

/-- Modelled from the spec: AddPubKey validates the key with the Ed25519
public-key shape check, then inserts or overwrites the entry for the ID. -/
def AddPubKey (s : PubKeysMap) (id key : List Nat) : Except Err PubKeysMap :=
  match ValidateEd25519PubKey key with
  | some e => Except.error e
  | none => Except.ok ((id, key) :: removeId s id)

/-- Modelled from the spec: GetPubKey returns the stored key for the ID, or
the not-found error ErrPubKeyNotFound of keys/types.go when absent. -/
def GetPubKey (s : PubKeysMap) (id : List Nat) : Except Err (List Nat) :=
  match lookupId s id with
  | some k => Except.ok k
  | none => Except.error Err.pubKeyNotFound

/-- Modelled from the spec: RemovePubKey deletes the entry for the ID,
failing when the ID is absent. -/
def RemovePubKey (s : PubKeysMap) (id : List Nat) : Except Err PubKeysMap :=
  match lookupId s id with
  | some _ => Except.ok (removeId s id)
  | none => Except.error Err.noPubKeyForID

/-- Modelled from the spec: ResetPubKeys clears all entries unconditionally. -/
def ResetPubKeys (_ : PubKeysMap) : PubKeysMap := []

/-- A raw JSON value, abstracted to what FromRawJSON inspects: either an
integer literal, which json.Unmarshal decodes into the keyType integer, or
any other raw payload, on which that decode fails. -/
inductive RawValue
  /-- a JSON integer literal -/
  | int (n : Int)
  /-- any raw JSON that is not an integer literal -/
  | other
  deriving DecidableEq, Repr

/-- A parsed top-level JSON object: field names mapped to raw values, as the
map of raw messages produced by the first unmarshal in FromRawJSON. -/
def RawObject : Type := List (String × RawValue)

/-- Lookup of a field by name in a parsed JSON object. -/
def lookupField : RawObject → String → Option RawValue
  | [], _ => none
  | (k, v) :: rest, name => if k = name then some v else lookupField rest name

/-- The client key material resulting from deserialization. The variant
payload decode is represented by storing the raw payload in the constructed
variant, since the concrete UnmarshalJSON implementations of the two variants
are not among the sources. -/
inductive KeyMaterial
  /-- the symmetric variant, discriminator 0 -/
  | symKeyMaterial (keyData : RawValue)
  /-- the public-key variant, discriminator 1 -/
  | pubKeyMaterial (keyData : RawValue)
  deriving DecidableEq, Repr

/-- FromRawJSON unmarshals a json encoded client key, embedding FromRawJSON
of keys/json.go: check that both fields are present, decode the keyType
discriminator, construct the matching variant, then hand it the keyData
payload. -/
def FromRawJSON (m : RawObject) : Except Err KeyMaterial :=
  match lookupField m ("keyType") with
  | none => Except.error Err.missingKeyType
  | some tv =>
    match lookupField m ("keyData") with
    | none => Except.error Err.missingKeyData
    | some dv =>
      match tv with
      | RawValue.other => Except.error Err.keyTypeDecodeFailed
      | RawValue.int n =>
        if n = 0 then Except.ok (KeyMaterial.symKeyMaterial dv)
        else if n = 1 then Except.ok (KeyMaterial.pubKeyMaterial dv)
        else Except.error Err.unsupportedKeyType

/-- Outcome of one read from the secure random source: the byte count
reported, whether an error was returned, and the bytes written into the
destination buffer prefix. -/
structure ReadResult where
  n : Nat
  err : Bool
  fill : List Nat
  deriving DecidableEq, Repr

/-- The destination buffer of length len after a read: the written bytes
followed by the remaining zero initialization of make; the buffer length is
len regardless of the read outcome. -/
def readBuffer (len : Nat) (r : ReadResult) : List Nat :=
  (r.fill ++ List.replicate len 0).take len

/-- Result of a function that may abort the process. -/
inductive ProcResult (α : Type)
  /-- normal return -/
  | ok (val : α)
  /-- the process aborted -/
  | panicked
  deriving DecidableEq, Repr

/-- RandomKey as in the first copy of crypto.go, lines 129 to 141: the return
values of the read from the random source are discarded and the buffer is
returned unconditionally. -/
def RandomKeyA (r : ReadResult) : List Nat := readBuffer KeyLen r

/-- RandomID as in the first copy of crypto.go, lines 136 to 141: the return
values of the read are discarded. -/
def RandomIDA (r : ReadResult) : List Nat := readBuffer IDLen r

/-- RandomKey as in the second copy of crypto.go, lines 287 to 299: an error
from the read, or a short read, aborts the process. -/
def RandomKeyB (r : ReadResult) : ProcResult (List Nat) :=
  if r.err then ProcResult.panicked
  else if r.n ≠ KeyLen then ProcResult.panicked
  else ProcResult.ok (readBuffer KeyLen r)

/-- RandomID as in the second copy of crypto.go, lines 301 to 313: an error
from the read, or a short read, aborts the process. -/
def RandomIDB (r : ReadResult) : ProcResult (List Nat) :=
  if r.err then ProcResult.panicked
  else if r.n ≠ IDLen then ProcResult.panicked
  else ProcResult.ok (readBuffer IDLen r)

/-- A concrete valid symmetric key used by witness instantiations: correct
length and not all zero. -/
def sampleKey : List Nat := 1 :: List.replicate 31 0

theorem putUint64LE_length (v : Nat) : (putUint64LE v).length = 8 := rfl

theorem uint64LE_putUint64LE (v : Nat) (h : v < 2 ^ 64) :
    uint64LE (putUint64LE v) = v := by
  simp only [putUint64LE, uint64LE, List.getD_cons_zero, List.getD_cons_succ]
  omega

theorem toUint64_lt (n : Int) : toUint64 n < 2 ^ 64 := by
  unfold toUint64
  omega

theorem toInt64_toUint64 (n : Int) (h0 : 0 ≤ n) (h1 : n < 2 ^ 63) :
    toInt64 (toUint64 n) = n := by
  unfold toInt64 toUint64
  split <;> omega

theorem maxDelayDuration_nonneg : (0 : Int) ≤ MaxDelayDuration := by
  unfold MaxDelayDuration
  omega

theorem keystreamByte_lt (seed i : Nat) : keystreamByte seed i < 256 :=
  Nat.mod_lt _ (by omega)

theorem encFrom_length (seed : Nat) (i : Nat) (pt : List Nat) :
    (encFrom seed i pt).length = pt.length := by
  induction pt generalizing i with
  | nil => rfl
  | cons b rest ih => simp [encFrom, ih]

theorem decFrom_encFrom (seed : Nat) (i : Nat) (pt : List Nat)
    (h : ∀ b ∈ pt, b < 256) :
    decFrom seed i (encFrom seed i pt) = pt := by
  induction pt generalizing i with
  | nil => rfl
  | cons b rest ih =>
    have hb : b < 256 := h b (List.mem_cons_self _ _)
    have hk : keystreamByte seed i < 256 := keystreamByte_lt seed i
    simp only [encFrom, decFrom, List.cons.injEq]
    refine ⟨by omega, ih (i + 1) (fun x hx => h x (List.mem_cons_of_mem _ hx))⟩

theorem sivTag_length (key ad pt : List Nat) : (sivTag key ad pt).length = TagLen := by
  simp [sivTag, putUint64LE, TagLen]

theorem sivSeal_length (key ad pt : List Nat) :
    (sivSeal key ad pt).length = TagLen + pt.length := by
  simp only [sivSeal, List.length_append, encFrom_length]
  rw [sivTag_length]

theorem sivSeal_take (key ad pt : List Nat) :
    (sivSeal key ad pt).take TagLen = sivTag key ad pt := by
  unfold sivSeal
  exact List.take_left' (sivTag_length key ad pt)

theorem sivSeal_drop (key ad pt : List Nat) :
    (sivSeal key ad pt).drop TagLen = encFrom (streamSeed key (sivTag key ad pt)) 0 pt := by
  unfold sivSeal
  exact List.drop_left' (sivTag_length key ad pt)

theorem sivOpen_sivSeal (key ad pt : List Nat) (h : IsByteList pt) :
    sivOpen key ad (sivSeal key ad pt) = some pt := by
  unfold sivOpen
  rw [if_neg (by rw [sivSeal_length]; omega)]
  simp [sivSeal_take, sivSeal_drop, decFrom_encFrom _ _ _ h]

theorem validateSymKey_some_cases (key : List Nat) (e : Err)
    (h : ValidateSymKey key = some e) :
    e = Err.invalidSymKeyLen KeyLen key.length ∨ e = Err.invalidSymKeyZero := by
  unfold ValidateSymKey at h
  split at h
  · exact Or.inl (Option.some.inj h).symm
  · split at h
    · exact Or.inr (Option.some.inj h).symm
    · exact absurd h (by simp)

theorem decrypt_error_ne_timestamp (key ad ct : List Nat) (e : Err)
    (h : Decrypt key ad ct = Except.error e) :
    e ≠ Err.timestampInFuture ∧ e ≠ Err.timestampTooOld := by
  unfold Decrypt at h
  split at h
  · rename_i e0 hv
    injection h with h
    subst h
    rcases validateSymKey_some_cases key e0 hv with h0 | h0 <;> subst h0 <;>
      exact ⟨by simp, by simp⟩
  · split at h
    · injection h with h
      subst h
      exact ⟨by simp, by simp⟩
    · split at h
      · exact absurd h (by simp)
      · injection h with h
        subst h
        exact ⟨by simp, by simp⟩

theorem encrypt_ok (key ad pt : List Nat) (hkey : ValidateSymKey key = none) :
    Encrypt key ad pt = Except.ok (sivSeal (key ++ key) ad pt) := by
  unfold Encrypt
  rw [hkey]

theorem protect_ok (payload key : List Nat) (now : Int)
    (hkey : ValidateSymKey key = none) :
    ProtectSymKey payload key now =
      Except.ok (putUint64LE (toUint64 now) ++
        sivSeal (key ++ key) (putUint64LE (toUint64 now)) payload) := by
  have h1 : TimestampLen + payload.length + TagLen =
      (putUint64LE (toUint64 now) ++
        sivSeal (key ++ key) (putUint64LE (toUint64 now)) payload).length := by
    simp only [List.length_append, putUint64LE_length, sivSeal_length, TimestampLen, TagLen]
    omega
  simp only [ProtectSymKey]
  rw [encrypt_ok _ _ _ hkey]
  show (if TimestampLen + payload.length + TagLen ≠
        (putUint64LE (toUint64 now) ++
          sivSeal (key ++ key) (putUint64LE (toUint64 now)) payload).length then
      Except.error Err.invalidProtectedLen
    else Except.ok (putUint64LE (toUint64 now) ++
      sivSeal (key ++ key) (putUint64LE (toUint64 now)) payload)) =
    Except.ok (putUint64LE (toUint64 now) ++
      sivSeal (key ++ key) (putUint64LE (toUint64 now)) payload)
  rw [if_neg (fun hc => hc h1)]

theorem unprotect_split (ts rest key : List Nat) (now : Int)
    (hts : ts.length = TimestampLen) (hrest : TagLen < rest.length) :
    UnprotectSymKey (ts ++ rest) key now =
      match ValidateTimestamp ts now with
      | some e => Except.error e
      | none => Decrypt key ts rest := by
  unfold UnprotectSymKey
  rw [if_neg (by simp only [List.length_append, hts, TimestampLen, TagLen] at *; omega)]
  rw [List.take_left' hts, List.drop_left' hts]

theorem validateTimestamp_none_iff (ts : List Nat) (now : Int) :
    ValidateTimestamp ts now = none ↔
      now - MaxDelayDuration ≤ toInt64 (uint64LE ts) ∧ toInt64 (uint64LE ts) ≤ now := by
  simp only [ValidateTimestamp]
  split_ifs with h1 h2 <;> simp <;> omega

theorem validateTimestamp_future (ts : List Nat) (now : Int)
    (h : now < toInt64 (uint64LE ts)) :
    ValidateTimestamp ts now = some Err.timestampInFuture := by
  simp only [ValidateTimestamp]
  rw [if_pos h]

theorem validateTimestamp_old (ts : List Nat) (now : Int)
    (h : toInt64 (uint64LE ts) < now - MaxDelayDuration) :
    ValidateTimestamp ts now = some Err.timestampTooOld := by
  have hM := maxDelayDuration_nonneg
  simp only [ValidateTimestamp]
  rw [if_neg (by omega), if_pos h]

theorem lookupId_removeId (s : PubKeysMap) (id : List Nat) :
    lookupId (removeId s id) id = none := by
  induction s with
  | nil => rfl
  | cons p rest ih =>
    obtain ⟨i, k⟩ := p
    simp only [removeId]
    split
    · exact ih
    · rename_i hne
      simp only [lookupId]
      rw [if_neg hne]
      exact ih

theorem countId_removeId (s : PubKeysMap) (id : List Nat) :
    countId (removeId s id) id = 0 := by
  induction s with
  | nil => rfl
  | cons p rest ih =>
    obtain ⟨i, k⟩ := p
    simp only [removeId]
    split
    · exact ih
    · rename_i hne
      simp only [countId, List.countP_cons] at ih ⊢
      simp [hne, ih]

theorem addPubKey_ok (s : PubKeysMap) (id key : List Nat)
    (h : ValidateEd25519PubKey key = none) :
    AddPubKey s id key = Except.ok ((id, key) :: removeId s id) := by
  unfold AddPubKey
  rw [h]

/-- C3: for every key and every protected input whose length is at most
TimestampLen + TagLen, UnprotectSymKey fails with ErrTooShortCipher,
whatever the key and the current time, hence before any timestamp validation
or decryption. -/
theorem C3_too_short (protectedBuf key : List Nat) (now : Int)
    (h : protectedBuf.length ≤ TimestampLen + TagLen) :
    UnprotectSymKey protectedBuf key now = Except.error Err.tooShortCipher := by
  unfold UnprotectSymKey
  rw [if_pos h]

/-- C3 witness: the rejection at a concrete 24-byte input. -/
theorem C3_too_short_witness :
    UnprotectSymKey (List.replicate 24 0) sampleKey 1000 = Except.error Err.tooShortCipher :=
  C3_too_short (List.replicate 24 0) sampleKey 1000 (by decide)

/-- C10: ValidateTimestampKey is extensionally equal to ValidateTimestamp;
both accept exactly the timestamps decoding into the inclusive window from
now - MaxDelayDuration to now, so ValidateTimestampKey also bounds ageing by
MaxDelayDuration. -/
theorem C10_validate_timestamp_key_eq (ts : List Nat) (now : Int) :
    ValidateTimestampKey ts now = ValidateTimestamp ts now ∧
    (ValidateTimestampKey ts now = none ↔
      now - MaxDelayDuration ≤ toInt64 (uint64LE ts) ∧ toInt64 (uint64LE ts) ≤ now) :=
  ⟨rfl, validateTimestamp_none_iff ts now⟩

/-- C2: for a protected buffer made of an 8-byte timestamp followed by more
than TagLen remaining bytes, UnprotectSymKey accepts every timestamp
decoding into the inclusive window from now - MaxDelayDuration to now and
then never returns a timestamp error, fails with ErrTimestampInFuture for
every timestamp decoding strictly after now, and fails with
ErrTimestampTooOld for every timestamp decoding strictly before
now - MaxDelayDuration. -/
theorem C2_replay_window (ts rest key : List Nat) (now : Int)
    (hts : ts.length = TimestampLen) (hrest : TagLen < rest.length) :
    (now - MaxDelayDuration ≤ toInt64 (uint64LE ts) ∧ toInt64 (uint64LE ts) ≤ now →
      ValidateTimestamp ts now = none ∧
      ∀ e, UnprotectSymKey (ts ++ rest) key now = Except.error e →
        e ≠ Err.timestampInFuture ∧ e ≠ Err.timestampTooOld) ∧
    (now < toInt64 (uint64LE ts) →
      UnprotectSymKey (ts ++ rest) key now = Except.error Err.timestampInFuture) ∧
    (toInt64 (uint64LE ts) < now - MaxDelayDuration →
      UnprotectSymKey (ts ++ rest) key now = Except.error Err.timestampTooOld) := by
  have hsplit := unprotect_split ts rest key now hts hrest
  refine ⟨?_, ?_, ?_⟩
  · intro hw
    have hv : ValidateTimestamp ts now = none := (validateTimestamp_none_iff ts now).mpr hw
    rw [hv] at hsplit
    refine ⟨hv, ?_⟩
    intro e he
    rw [hsplit] at he
    exact decrypt_error_ne_timestamp key ts rest e he
  · intro hf
    rw [validateTimestamp_future ts now hf] at hsplit
    exact hsplit
  · intro ho
    rw [validateTimestamp_old ts now ho] at hsplit
    exact hsplit

/-- C2 witness: a timestamp at exactly now is accepted at a concrete input. -/
theorem C2_replay_window_witness :
    ValidateTimestamp (putUint64LE 1000) 1000 = none :=
  ((C2_replay_window (putUint64LE 1000) (List.replicate 17 0) sampleKey 1000
    (by decide) (by decide)).1 (by decide)).1

/-- C4: for a valid symmetric key, ProtectSymKey returns the buffer made of
the 8-byte little-endian encoding of the Unix time followed by ciphertext
plus tag, and every returned buffer has the timestamp as its TimestampLen
prefix and total length TimestampLen + payload length + TagLen, so the
defensive length check never fires. -/
theorem C4_protect_layout (payload key : List Nat) (now : Int)
    (hkey : ValidateSymKey key = none) :
    ProtectSymKey payload key now =
      Except.ok (putUint64LE (toUint64 now) ++
        sivSeal (key ++ key) (putUint64LE (toUint64 now)) payload) ∧
    ∀ buf, ProtectSymKey payload key now = Except.ok buf →
      buf.take TimestampLen = putUint64LE (toUint64 now) ∧
      buf.length = TimestampLen + payload.length + TagLen := by
  have hp := protect_ok payload key now hkey
  refine ⟨hp, ?_⟩
  intro buf hbuf
  rw [hp] at hbuf
  injection hbuf with hbuf
  subst hbuf
  constructor
  · exact List.take_left' (putUint64LE_length (toUint64 now))
  · simp only [List.length_append, putUint64LE_length, sivSeal_length, TimestampLen, TagLen]
    omega

/-- C4 witness: the layout at a concrete payload and key. -/
theorem C4_protect_layout_witness :
    ProtectSymKey [1, 2] sampleKey 1000 =
      Except.ok (putUint64LE (toUint64 1000) ++
        sivSeal (sampleKey ++ sampleKey) (putUint64LE (toUint64 1000)) [1, 2]) :=
  (C4_protect_layout [1, 2] sampleKey 1000 (by decide)).1

/-- C9: with a valid key, protecting the empty payload succeeds with a
buffer of exactly TimestampLen + TagLen bytes, every buffer of that length
is rejected by UnprotectSymKey with ErrTooShortCipher, and the round trip on
the empty payload fails with ErrTooShortCipher. -/
theorem C9_empty_payload (key buf : List Nat) (nowP nowU : Int)
    (hkey : ValidateSymKey key = none) (hbuf : buf.length = TimestampLen + TagLen) :
    ProtectSymKey [] key nowP =
      Except.ok (putUint64LE (toUint64 nowP) ++
        sivSeal (key ++ key) (putUint64LE (toUint64 nowP)) []) ∧
    (putUint64LE (toUint64 nowP) ++
      sivSeal (key ++ key) (putUint64LE (toUint64 nowP)) []).length =
      TimestampLen + TagLen ∧
    UnprotectSymKey buf key nowU = Except.error Err.tooShortCipher ∧
    roundTripSymKey [] key nowP nowU = Except.error Err.tooShortCipher := by
  have hp := protect_ok [] key nowP hkey
  have hlen : (putUint64LE (toUint64 nowP) ++
      sivSeal (key ++ key) (putUint64LE (toUint64 nowP)) []).length =
      TimestampLen + TagLen := by
    simp only [List.length_append, putUint64LE_length, sivSeal_length, List.length_nil,
      TimestampLen, TagLen]
  refine ⟨hp, hlen, ?_, ?_⟩
  · unfold UnprotectSymKey
    rw [if_pos (le_of_eq hbuf)]
  · unfold roundTripSymKey
    rw [hp]
    show UnprotectSymKey (putUint64LE (toUint64 nowP) ++
        sivSeal (key ++ key) (putUint64LE (toUint64 nowP)) []) key nowU =
      Except.error Err.tooShortCipher
    unfold UnprotectSymKey
    rw [if_pos (le_of_eq hlen)]

/-- C9 witness: the empty-payload round trip fails at a concrete key. -/
theorem C9_empty_payload_witness :
    roundTripSymKey [] sampleKey 1000 1000 = Except.error Err.tooShortCipher :=
  (C9_empty_payload sampleKey (List.replicate 24 0) 1000 1000 (by decide) (by decide)).2.2.2

/-- C1 counterexample: the claim fails on the empty payload; protecting the
empty payload with a valid key and unprotecting at the same instant does not
return the payload but fails with ErrTooShortCipher. -/
theorem C1_counterexample :
    roundTripSymKey [] sampleKey 2000 2000 = Except.error Err.tooShortCipher := rfl

/-- C1 (amended): for every valid key and nonempty byte payload, protecting
and then unprotecting with the same key within the replay window of the
protect returns exactly the original payload. -/
theorem C1_round_trip (payload key : List Nat) (nowP nowU : Int)
    (hkey : ValidateSymKey key = none) (hpl : IsByteList payload) (hne : payload ≠ [])
    (h0 : 0 ≤ nowP) (h1 : nowP < 2 ^ 63)
    (hw1 : nowP ≤ nowU) (hw2 : nowU ≤ nowP + MaxDelayDuration) :
    roundTripSymKey payload key nowP nowU = Except.ok payload := by
  have hp := protect_ok payload key nowP hkey
  unfold roundTripSymKey
  rw [hp]
  show UnprotectSymKey (putUint64LE (toUint64 nowP) ++
      sivSeal (key ++ key) (putUint64LE (toUint64 nowP)) payload) key nowU = Except.ok payload
  have hplen : 0 < payload.length := List.length_pos.mpr hne
  have hrest : TagLen < (sivSeal (key ++ key) (putUint64LE (toUint64 nowP)) payload).length := by
    rw [sivSeal_length]
    omega
  rw [unprotect_split (putUint64LE (toUint64 nowP))
    (sivSeal (key ++ key) (putUint64LE (toUint64 nowP)) payload) key nowU
    (putUint64LE_length _) hrest]
  have hts : toInt64 (uint64LE (putUint64LE (toUint64 nowP))) = nowP := by
    rw [uint64LE_putUint64LE _ (toUint64_lt nowP), toInt64_toUint64 nowP h0 h1]
  have hv : ValidateTimestamp (putUint64LE (toUint64 nowP)) nowU = none := by
    rw [validateTimestamp_none_iff, hts]
    exact ⟨by omega, hw1⟩
  rw [hv]
  show Decrypt key (putUint64LE (toUint64 nowP))
      (sivSeal (key ++ key) (putUint64LE (toUint64 nowP)) payload) = Except.ok payload
  unfold Decrypt
  rw [hkey]
  show (if (sivSeal (key ++ key) (putUint64LE (toUint64 nowP)) payload).length < TagLen then
      Except.error Err.tooShortCiphertext
    else
      match sivOpen (key ++ key) (putUint64LE (toUint64 nowP))
          (sivSeal (key ++ key) (putUint64LE (toUint64 nowP)) payload) with
      | some pt => Except.ok pt
      | none => Except.error Err.authFailed) = Except.ok payload
  rw [if_neg (by omega)]
  rw [sivOpen_sivSeal _ _ _ hpl]

/-- C1 witness: the amended round trip at a concrete key, payload and time. -/
theorem C1_round_trip_witness :
    roundTripSymKey [5] sampleKey 1000 1000 = Except.ok [5] :=
  C1_round_trip [5] sampleKey 1000 1000 (by decide) (by decide) (by decide) (by decide)
    (by decide) (by decide) (by decide)

/-- C5: ValidateSymKey succeeds exactly on keys of length KeyLen that are
not all zeros, and on any key it rejects, Encrypt and Decrypt return exactly
that validation error before any cryptographic step. -/
theorem C5_key_validation (key : List Nat) :
    (ValidateSymKey key = none ↔
      key.length = KeyLen ∧ key ≠ List.replicate KeyLen 0) ∧
    ∀ e, ValidateSymKey key = some e →
      (∀ ad pt, Encrypt key ad pt = Except.error e) ∧
      (∀ ad ct, Decrypt key ad ct = Except.error e) := by
  constructor
  · unfold ValidateSymKey zeroSymKey
    split_ifs with hl hz <;> simp_all
  · intro e he
    constructor
    · intro ad pt
      unfold Encrypt
      rw [he]
    · intro ad ct
      unfold Decrypt
      rw [he]

/-- C5 witness: the empty key is rejected and Encrypt forwards the error. -/
theorem C5_key_validation_witness :
    Encrypt [] [] [] = Except.error (Err.invalidSymKeyLen 32 0) :=
  (((C5_key_validation []).2 (Err.invalidSymKeyLen 32 0)) (by decide)).1 [] []

/-- C6: overwriting insert leaves exactly one entry for the ID holding the
second key, removing succeeds when the ID is present and a second remove of
the same ID errors, and after a reset every lookup fails with the not-found
error. -/
theorem C6_store_semantics (s : PubKeysMap) (id k1 k2 : List Nat)
    (h1 : ValidateEd25519PubKey k1 = none) (h2 : ValidateEd25519PubKey k2 = none) :
    (∀ s1 s2, AddPubKey s id k1 = Except.ok s1 → AddPubKey s1 id k2 = Except.ok s2 →
      countId s2 id = 1 ∧ GetPubKey s2 id = Except.ok k2) ∧
    ((lookupId s id).isSome →
      RemovePubKey s id = Except.ok (removeId s id) ∧
      RemovePubKey (removeId s id) id = Except.error Err.noPubKeyForID) ∧
    (∀ id2, GetPubKey (ResetPubKeys s) id2 = Except.error Err.pubKeyNotFound) := by
  refine ⟨?_, ?_, ?_⟩
  · intro s1 s2 ha1 ha2
    rw [addPubKey_ok s id k1 h1] at ha1
    injection ha1 with ha1
    subst ha1
    rw [addPubKey_ok _ id k2 h2] at ha2
    injection ha2 with ha2
    subst ha2
    constructor
    · have hc : countId (removeId ((id, k1) :: removeId s id) id) id = 0 :=
        countId_removeId _ id
      simp only [countId, List.countP_cons] at hc ⊢
      simp [hc]
    · unfold GetPubKey
      simp [lookupId]
  · intro hsome
    obtain ⟨k, hk⟩ := Option.isSome_iff_exists.mp hsome
    constructor
    · unfold RemovePubKey
      rw [hk]
    · unfold RemovePubKey
      rw [lookupId_removeId]
  · intro id2
    rfl

/-- C6 witness: the overwrite at a concrete store, ID and keys. -/
theorem C6_store_semantics_witness :
    countId [([1], sampleKey)] [1] = 1 ∧
    GetPubKey [([1], sampleKey)] [1] = Except.ok sampleKey :=
  (C6_store_semantics [] [1] sampleKey sampleKey (by decide) (by decide)).1
    [([1], sampleKey)] [([1], sampleKey)] (by rfl) (by rfl)

/-- C7: FromRawJSON errors when the keyType field is missing, when the
keyData field is missing, when the keyType value is not an integer, and when
the integer discriminator is neither 0 nor 1; discriminator 0 constructs the
symmetric variant around the payload and 1 the public-key variant. -/
theorem C7_from_raw_json (m : RawObject) :
    (lookupField m ("keyType") = none →
      FromRawJSON m = Except.error Err.missingKeyType) ∧
    (∀ tv, lookupField m ("keyType") = some tv → lookupField m ("keyData") = none →
      FromRawJSON m = Except.error Err.missingKeyData) ∧
    (∀ dv, lookupField m ("keyType") = some RawValue.other →
      lookupField m ("keyData") = some dv →
      FromRawJSON m = Except.error Err.keyTypeDecodeFailed) ∧
    (∀ n dv, lookupField m ("keyType") = some (RawValue.int n) →
      lookupField m ("keyData") = some dv → n ≠ 0 → n ≠ 1 →
      FromRawJSON m = Except.error Err.unsupportedKeyType) ∧
    (∀ dv, lookupField m ("keyType") = some (RawValue.int 0) →
      lookupField m ("keyData") = some dv →
      FromRawJSON m = Except.ok (KeyMaterial.symKeyMaterial dv)) ∧
    (∀ dv, lookupField m ("keyType") = some (RawValue.int 1) →
      lookupField m ("keyData") = some dv →
      FromRawJSON m = Except.ok (KeyMaterial.pubKeyMaterial dv)) := by
  refine ⟨?_, ?_, ?_, ?_, ?_, ?_⟩
  · intro h
    unfold FromRawJSON
    rw [h]
  · intro tv h hd
    unfold FromRawJSON
    rw [h, hd]
  · intro dv h hd
    unfold FromRawJSON
    rw [h, hd]
  · intro n dv h hd hn0 hn1
    unfold FromRawJSON
    rw [h, hd]
    show (if n = 0 then Except.ok (KeyMaterial.symKeyMaterial dv)
      else if n = 1 then Except.ok (KeyMaterial.pubKeyMaterial dv)
      else Except.error Err.unsupportedKeyType) = Except.error Err.unsupportedKeyType
    rw [if_neg hn0, if_neg hn1]
  · intro dv h hd
    unfold FromRawJSON
    rw [h, hd]
    show (if (0 : Int) = 0 then Except.ok (KeyMaterial.symKeyMaterial dv)
      else if (0 : Int) = 1 then Except.ok (KeyMaterial.pubKeyMaterial dv)
      else Except.error Err.unsupportedKeyType) = Except.ok (KeyMaterial.symKeyMaterial dv)
    rw [if_pos rfl]
  · intro dv h hd
    unfold FromRawJSON
    rw [h, hd]
    show (if (1 : Int) = 0 then Except.ok (KeyMaterial.symKeyMaterial dv)
      else if (1 : Int) = 1 then Except.ok (KeyMaterial.pubKeyMaterial dv)
      else Except.error Err.unsupportedKeyType) = Except.ok (KeyMaterial.pubKeyMaterial dv)
    rw [if_neg (by decide), if_pos rfl]

/-- C7 witness: the empty object is rejected for its missing keyType. -/
theorem C7_from_raw_json_witness :
    FromRawJSON [] = Except.error Err.missingKeyType :=
  (C7_from_raw_json []).1 rfl

/-- C8: both copies of RandomKey and RandomID always return buffers of
length KeyLen and IDLen; on a read from the random source reporting an
error, the second copy aborts the process while the first copy ignores the
error and returns the zero-initialized buffer, contradicting the claim for
the first copy. -/
theorem C8_random_entropy_failure :
    (∀ r, (RandomKeyA r).length = KeyLen ∧ (RandomIDA r).length = IDLen) ∧
    RandomKeyA ⟨0, true, []⟩ = List.replicate KeyLen 0 ∧
    RandomKeyB ⟨0, true, []⟩ = ProcResult.panicked ∧
    RandomIDA ⟨0, true, []⟩ = List.replicate IDLen 0 ∧
    RandomIDB ⟨0, true, []⟩ = ProcResult.panicked := by
  refine ⟨?_, by rfl, by rfl, by rfl, by rfl⟩
  intro r
  constructor <;>
    simp only [RandomKeyA, RandomIDA, readBuffer, List.length_take, List.length_append,
      List.length_replicate] <;>
    omega
